import Mathlib

/- Verification of the validation engine of src/streamlit_app.py.

   The engine is the function apply_validation(df, column, rule, param)
   (lines 37-66) together with the per-sheet loop over the selected columns
   (lines 132-147).  The embedding below models a pandas DataFrame as an
   ordered list of column names plus an ordered list of rows, each row a
   positional list of cells; a cell is either missing (NaN) or a value
   identified with its Python string form, since the engine only ever
   observes str(value).  Mutation (the fillna assignment on line 43) is made
   explicit: every modelled call returns the dataframe as the caller
   observes it afterwards, next to either the raised error or the computed
   list of violation records. -/

namespace DataValidation

/-- Cell of a dataframe as the engine observes it: missing (NaN, `none`) or
a value identified with its Python string form. -/
abbrev Cell := Option String

/-- Tabular dataset: ordered column names and ordered rows, each row a list
of cells aligned positionally with `cols`.  Row identity is the positional
index, as in the pandas default RangeIndex the app uses. -/
structure DataFrame where
  cols : List String
  rows : List (List Cell)
  deriving DecidableEq

/-- Position of the first occurrence of a name in a column list (the pandas
column lookup); equals the length of the list when the name is absent. -/
def colIdx : List String → String → Nat
  | [], _ => 0
  | c0 :: rest, c => if c0 = c then 0 else colIdx rest c + 1

/-- Cells of one column in row order, as iterating df[column] yields them;
a position beyond the end of a row counts as missing. -/
def colCells (df : DataFrame) (c : String) : List Cell :=
  df.rows.map (fun r => (r[colIdx df.cols c]?).getD none)

/-- String form of each cell of a column after the fillna step: a missing
cell reads as the empty string, any other cell as its string form. -/
def colStrings (df : DataFrame) (c : String) : List String :=
  (colCells df c).map (fun x => x.getD "")

/-- Embedding of line 43, df[column] = df[column].fillna(""): in every row
the cell of column `c` is overwritten with its string form (so a missing
cell becomes the empty string and any other cell keeps its value). -/
def fillnaCol (df : DataFrame) (c : String) : DataFrame :=
  { cols := df.cols
    rows := df.rows.map (fun r =>
      r.set (colIdx df.cols c) (some (((r[colIdx df.cols c]?).getD none).getD ""))) }

/-- Dataframe as observed after an apply_validation call: the fillna step
runs only when the target column exists (lines 40-43). -/
def fillnaIfPresent (df : DataFrame) (c : String) : DataFrame :=
  if c ∈ df.cols then fillnaCol df c else df

/-- Single-quote character, used by the Python f-string messages. -/
def sq : String := String.mk [Char.ofNat 39]

/-- Non-ASCII characters accepted by Python str.isnumeric.  Python accepts
every character whose Unicode property Numeric_Type is Digit, Decimal or
Numeric; this model lists representative such ranges (Latin-1 superscripts
and vulgar fractions, Arabic-Indic and Extended Arabic-Indic digits,
Devanagari digits, superscript and subscript digits, fullwidth digits), all
of which Python accepts, and is exact on ASCII, where no character outside
0-9 is numeric. -/
def nonAsciiNumericChar (c : Char) : Bool :=
  decide ((0xB2 ≤ c.toNat ∧ c.toNat ≤ 0xB3) ∨ c.toNat = 0xB9 ∨
    (0xBC ≤ c.toNat ∧ c.toNat ≤ 0xBE) ∨
    (0x660 ≤ c.toNat ∧ c.toNat ≤ 0x669) ∨
    (0x6F0 ≤ c.toNat ∧ c.toNat ≤ 0x6F9) ∨
    (0x966 ≤ c.toNat ∧ c.toNat ≤ 0x96F) ∨ c.toNat = 0x2070 ∨
    (0x2074 ≤ c.toNat ∧ c.toNat ≤ 0x2079) ∨
    (0x2080 ≤ c.toNat ∧ c.toNat ≤ 0x2089) ∨
    (0xFF10 ≤ c.toNat ∧ c.toNat ≤ 0xFF19))

/-- Character test of Python str.isnumeric: ASCII decimal digits plus the
non-ASCII numeric characters. -/
def pyCharIsNumeric (c : Char) : Bool :=
  c.isDigit || nonAsciiNumericChar c

/-- Python str.isnumeric: true iff the string is nonempty and every
character is numeric. -/
def pyIsNumeric (s : String) : Bool :=
  !s.data.isEmpty && s.data.all pyCharIsNumeric

/-- Python substring test, the `in` operator on str: the needle is a
contiguous run of code points inside the haystack. -/
def pyIn (needle hay : String) : Bool :=
  decide (needle.data <:+: hay.data)

/-- Value of a run of ASCII digits, accumulator style; `none` as soon as a
non-digit appears. -/
def digitsVal : List Char → Nat → Option Nat
  | [], acc => some acc
  | c :: rest, acc =>
    if c.isDigit then digitsVal rest (10 * acc + (c.toNat - 48)) else none

/-- Whitespace stripped from both ends of a code-point list, the strip
Python int() applies to its argument. -/
def stripChars (cs : List Char) : List Char :=
  ((cs.dropWhile Char.isWhitespace).reverse.dropWhile Char.isWhitespace).reverse

/-- Python int(str): surrounding whitespace stripped, one optional sign,
then a nonempty run of digits.  (Python additionally accepts underscore
separators between digits and non-ASCII digits; such inputs are outside
this model.) -/
def pyInt (s : String) : Option Int :=
  match stripChars s.data with
  | [] => none
  | c :: rest =>
    if c = Char.ofNat 43 then
      match rest with
      | [] => none
      | _ :: _ => (digitsVal rest 0).map (fun n => (n : Int))
    else if c = Char.ofNat 45 then
      match rest with
      | [] => none
      | _ :: _ => (digitsVal rest 0).map (fun n => -(n : Int))
    else (digitsVal (c :: rest) 0).map (fun n => (n : Int))

/-- Message of line 48: Keyword (kw) not found in value (v). -/
def msgKeyword (kw v : String) : String :=
  "Keyword " ++ sq ++ kw ++ sq ++ " not found in value " ++ sq ++ v ++ sq

/-- Message of line 54: Value (v) is not numeric. -/
def msgNumeric (v : String) : String :=
  "Value " ++ sq ++ v ++ sq ++ " is not numeric"

/-- Message of line 61: Value (v) is not exactly (L) characters. -/
def msgLength (v : String) (L : Int) : String :=
  "Value " ++ sq ++ v ++ sq ++ " is not exactly " ++ toString L ++ " characters"

/-- Shape shared by the three list comprehensions of lines 47-64: enumerate
the column values with their row indices and keep, for each value failing
the pass test, the pair of its row index and its message. -/
def ruleErrors (pass : String → Bool) (msg : String → String)
    (vals : List String) : List (Nat × String) :=
  vals.enum.filterMap (fun iv => if pass iv.2 then none else some (iv.1, msg iv.2))

/-- Configuration error the engine can raise: the ValueError from
int(param) on line 59 when the fixed_length parameter is not an integer. -/
inductive VErr where
  | invalidParameter
  deriving DecidableEq

instance {ε α : Type} [DecidableEq ε] [DecidableEq α] : DecidableEq (Except ε α) := fun x y => by
  cases x with
  | ok a =>
    cases y with
    | ok b => exact decidable_of_iff (a = b) (by simp)
    | error f => exact isFalse (by simp)
  | error e =>
    cases y with
    | ok b => exact isFalse (by simp)
    | error f => exact decidable_of_iff (e = f) (by simp)

/-- Rule dispatch of lines 45-64, the if/elif chain keyed by the rule
identifier string, applied to the string forms of the target column after
the fillna step.  A rule identifier other than the three of the chain
leaves `errors` at its initial empty value. -/
def evalDispatch (rule param : String) (vals : List String) :
    Except VErr (List (Nat × String)) :=
  if rule = "contains_keyword_in_row" then
    Except.ok (ruleErrors (fun v => pyIn param v) (fun v => msgKeyword param v) vals)
  else if rule = "numeric_only" then
    Except.ok (ruleErrors pyIsNumeric msgNumeric vals)
  else if rule = "fixed_length" then
    match pyInt param with
    | none => Except.error VErr.invalidParameter
    | some L =>
      Except.ok (ruleErrors (fun v => decide ((v.length : Int) = L))
        (fun v => msgLength v L) vals)
  else Except.ok []

/-- Embedding of apply_validation(df, column, rule, param), lines 37-66:
an absent target column returns the empty list untouched (lines 40-41);
otherwise the fillna assignment of line 43 rewrites the target column and
the rule dispatch of lines 45-64 runs on the rewritten column.  The call
returns the dataframe as the caller observes it afterwards (the fillna
assignment mutates the caller-visible dataframe, and it happens before the
dispatch, so it persists even when int(param) raises) together with either
the raised error or the computed errors list. -/
def apply_validation (df : DataFrame) (column rule param : String) :
    DataFrame × Except VErr (List (Nat × String)) :=
  if column ∈ df.cols then
    (fillnaCol df column,
      evalDispatch rule param (colStrings (fillnaCol df column) column))
  else (df, Except.ok [])

/-- Errors list of an engine call that did not raise (empty otherwise). -/
def okErrors (df : DataFrame) (column rule param : String) : List (Nat × String) :=
  match (apply_validation df column rule param).2 with
  | Except.ok E => E
  | Except.error _ => []

/-- Embedding of the validation loop of lines 132-147: for each selected
column in caller order, call apply_validation on the current dataframe and
append its records, tagged with the column name, to all_errors.  An
exception aborts the loop and discards the accumulated list, while the
mutations already applied persist. -/
def runValidation (df : DataFrame) (selected : List String) (rule param : String) :
    DataFrame × Except VErr (List (Nat × String × String)) :=
  match selected with
  | [] => (df, Except.ok [])
  | c :: rest =>
    match apply_validation df c rule param with
    | (df1, Except.error e) => (df1, Except.error e)
    | (df1, Except.ok errs) =>
      match runValidation df1 rest rule param with
      | (df2, Except.error e) => (df2, Except.error e)
      | (df2, Except.ok more) =>
        (df2, Except.ok (errs.map (fun im => (im.1, c, im.2)) ++ more))

/-- Ordering the specification asserts for the full violation list:
row-major, ascending row index, and within one row the caller-specified
column order. -/
def specRowMajorLe (sel : List String) (x y : Nat × String × String) : Prop :=
  x.1 < y.1 ∨ (x.1 = y.1 ∧ colIdx sel x.2.1 < colIdx sel y.2.1)

/-- Ordering the loop actually produces: column-major, caller-specified
column order first, ascending row index within one column. -/
def colMajorLe (sel : List String) (x y : Nat × String × String) : Prop :=
  colIdx sel x.2.1 < colIdx sel y.2.1 ∨ (x.2.1 = y.2.1 ∧ x.1 < y.1)

instance (sel : List String) (x y : Nat × String × String) :
    Decidable (specRowMajorLe sel x y) := by
  unfold specRowMajorLe
  infer_instance

instance (sel : List String) (x y : Nat × String × String) :
    Decidable (colMajorLe sel x y) := by
  unfold colMajorLe
  infer_instance

/-- Two dataframes the engine cannot tell apart: same column names and, for
every column name, the same per-row string forms. -/
def SameView (A B : DataFrame) : Prop :=
  A.cols = B.cols ∧ ∀ c, colStrings A c = colStrings B c

/-- Scenario dataset of the specification, rows 001 / 02 / abc in column id. -/
def dfLen : DataFrame := ⟨["id"], [[some "001"], [some "02"], [some "abc"]]⟩

/-- One-column dataset whose single cell is missing. -/
def dfMiss : DataFrame := ⟨["a"], [[none]]⟩

/-- Dataset `dfMiss` after the fillna step: the missing cell became the
empty string. -/
def dfMissFilled : DataFrame := ⟨["a"], [[some ""]]⟩

/-- Two-column, two-row dataset with the same non-numeric value in every
cell; every cell violates numeric_only. -/
def dfTwo : DataFrame := ⟨["a", "b"], [[some "x", some "x"], [some "x", some "x"]]⟩

/-- Violation list the loop produces on `dfTwo` with numeric_only over
columns a then b: all of column a first, then all of column b. -/
def listTwo : List (Nat × String × String) :=
  [(0, "a", msgNumeric "x"), (1, "a", msgNumeric "x"),
   (0, "b", msgNumeric "x"), (1, "b", msgNumeric "x")]

/-- Keyword-scenario dataset: values food, Foo and a missing cell. -/
def dfKw : DataFrame := ⟨["v"], [[some "food"], [some "Foo"], [none]]⟩

/-- Dataset `dfKw` after the fillna step. -/
def dfKwFilled : DataFrame := ⟨["v"], [[some "food"], [some "Foo"], [some ""]]⟩

/-- Superscript-two character, U+00B2: not an ASCII decimal digit, yet
accepted by Python str.isnumeric. -/
def supTwo : String := "²"

/-- One-cell dataset holding the superscript-two character. -/
def dfSup : DataFrame := ⟨["a"], [[some supTwo]]⟩

theorem colIdx_lt_length {cols : List String} {c : String} (h : c ∈ cols) :
    colIdx cols c < cols.length := by
  induction cols with
  | nil => simp at h
  | cons c0 rest ih =>
    simp only [colIdx, List.length_cons]
    by_cases h0 : c0 = c
    · simp [h0]
    · have hc : c ∈ rest := by
        rcases List.mem_cons.1 h with h1 | h1
        · exact absurd h1.symm h0
        · exact h1
      simp only [h0, if_false]
      exact Nat.succ_lt_succ (ih hc)

theorem colIdx_eq_length {cols : List String} {c : String} (h : c ∉ cols) :
    colIdx cols c = cols.length := by
  induction cols with
  | nil => rfl
  | cons c0 rest ih =>
    have h0 : c0 ≠ c := fun he => h (he ▸ List.mem_cons_self c0 rest)
    have hr : c ∉ rest := fun hm => h (List.mem_cons_of_mem c0 hm)
    simp [colIdx, h0, ih hr]

theorem colIdx_getElem {cols : List String} {c : String} (h : c ∈ cols) :
    cols[colIdx cols c]? = some c := by
  induction cols with
  | nil => simp at h
  | cons c0 rest ih =>
    by_cases h0 : c0 = c
    · simp [colIdx, h0]
    · have hc : c ∈ rest := by
        rcases List.mem_cons.1 h with h1 | h1
        · exact absurd h1.symm h0
        · exact h1
      simp [colIdx, h0, ih hc]

theorem colIdx_ne {cols : List String} {c c0 : String} (hc : c ∈ cols) (h : c ≠ c0) :
    colIdx cols c ≠ colIdx cols c0 := by
  by_cases h0 : c0 ∈ cols
  · intro he
    have h1 := colIdx_getElem hc
    rw [he, colIdx_getElem h0] at h1
    exact h (Option.some.inj h1).symm
  · rw [colIdx_eq_length h0]
    exact Nat.ne_of_lt (colIdx_lt_length hc)

theorem fillCell_read (r : List Cell) (j0 j : Nat) :
    (((r.set j0 (some (((r[j0]?).getD none).getD "")))[j]?).getD none).getD "" =
      ((r[j]?).getD none).getD "" := by
  by_cases hj : j0 = j
  · subst hj
    cases hr : r[j0]? with
    | none => simp [List.getElem?_set_self', hr]
    | some cell => simp [List.getElem?_set_self', hr]
  · rw [List.getElem?_set_ne hj]

theorem colStrings_fillnaCol (df : DataFrame) (c0 c : String) :
    colStrings (fillnaCol df c0) c = colStrings df c := by
  show ((df.rows.map _).map _).map _ = (df.rows.map _).map _
  simp only [List.map_map]
  exact List.map_congr_left fun r _ =>
    fillCell_read r (colIdx df.cols c0) (colIdx df.cols c)

theorem apply_validation_fst (df : DataFrame) (c r p : String) :
    (apply_validation df c r p).1 = fillnaIfPresent df c := by
  unfold apply_validation fillnaIfPresent
  by_cases h : c ∈ df.cols <;> simp [h]

theorem apply_validation_snd (df : DataFrame) (c r p : String) :
    (apply_validation df c r p).2 =
      if c ∈ df.cols then evalDispatch r p (colStrings df c) else Except.ok [] := by
  unfold apply_validation
  by_cases h : c ∈ df.cols <;> simp [h, colStrings_fillnaCol]

theorem enumFrom_pairwise_fst_lt (l : List String) (n : Nat) :
    (l.enumFrom n).Pairwise (fun x y => x.1 < y.1) := by
  induction l generalizing n with
  | nil => exact List.Pairwise.nil
  | cons a rest ih =>
    rw [List.enumFrom_cons]
    refine List.pairwise_cons.2 ⟨fun y hy => ?_, ih (n + 1)⟩
    exact Nat.lt_of_lt_of_le (Nat.lt_succ_self n) (List.le_fst_of_mem_enumFrom hy)

theorem ruleErrors_pairwise (pass : String → Bool) (msg : String → String)
    (vals : List String) :
    (ruleErrors pass msg vals).Pairwise (fun x y => x.1 < y.1) := by
  unfold ruleErrors
  refine List.pairwise_filterMap.2 ?_
  refine (enumFrom_pairwise_fst_lt vals 0).imp ?_
  intro a b hab x hx y hy
  by_cases ha : pass a.2 <;> by_cases hb : pass b.2 <;>
    simp [ha, hb, Option.mem_def] at hx hy
  subst hx
  subst hy
  exact hab

theorem mem_ruleErrors {pass : String → Bool} {msg : String → String}
    {vals : List String} {i : Nat} {m : String} :
    (i, m) ∈ ruleErrors pass msg vals ↔
      ∃ s, vals[i]? = some s ∧ pass s = false ∧ m = msg s := by
  unfold ruleErrors
  rw [List.mem_filterMap]
  constructor
  · rintro ⟨⟨j, s⟩, hmem, hf⟩
    by_cases hp : pass s
    · simp [hp] at hf
    · rw [if_neg hp] at hf
      have h2 := Prod.ext_iff.1 (Option.some.inj hf)
      rcases h2 with ⟨hj, hm⟩
      simp only at hj hm
      subst hj
      subst hm
      exact ⟨s, List.mk_mem_enum_iff_getElem?.1 hmem, Bool.eq_false_iff.2 hp, rfl⟩
  · rintro ⟨s, hget, hp, hm⟩
    subst hm
    exact ⟨(i, s), List.mk_mem_enum_iff_getElem?.2 hget, by simp [hp]⟩

theorem exists_mem_ruleErrors {pass : String → Bool} {msg : String → String}
    {vals : List String} {i : Nat} :
    (∃ m, (i, m) ∈ ruleErrors pass msg vals) ↔
      ∃ s, vals[i]? = some s ∧ pass s = false := by
  constructor
  · rintro ⟨m, hm⟩
    obtain ⟨s, h1, h2, _⟩ := mem_ruleErrors.1 hm
    exact ⟨s, h1, h2⟩
  · rintro ⟨s, h1, h2⟩
    exact ⟨msg s, mem_ruleErrors.2 ⟨s, h1, h2, rfl⟩⟩

theorem evalDispatch_ok_pairwise {r p : String} {vals : List String}
    {E : List (Nat × String)} (h : evalDispatch r p vals = Except.ok E) :
    E.Pairwise (fun x y => x.1 < y.1) := by
  unfold evalDispatch at h
  split at h
  · cases h; exact ruleErrors_pairwise _ _ _
  · split at h
    · cases h; exact ruleErrors_pairwise _ _ _
    · split at h
      · split at h
        · cases h
        · cases h; exact ruleErrors_pairwise _ _ _
      · cases h; exact List.Pairwise.nil

theorem sameView_refl (df : DataFrame) : SameView df df := ⟨rfl, fun _ => rfl⟩

theorem sameView_trans {A B C : DataFrame} (h1 : SameView A B) (h2 : SameView B C) :
    SameView A C :=
  ⟨h1.1.trans h2.1, fun c => (h1.2 c).trans (h2.2 c)⟩

theorem sameView_symmetric {A B : DataFrame} (h : SameView A B) : SameView B A :=
  ⟨h.1.symm, fun c => (h.2 c).symm⟩

theorem sameView_fillnaCol (df : DataFrame) (c : String) :
    SameView (fillnaCol df c) df :=
  ⟨rfl, fun c0 => colStrings_fillnaCol df c c0⟩

theorem sameView_apply_fst (df : DataFrame) (c r p : String) :
    SameView (apply_validation df c r p).1 df := by
  rw [apply_validation_fst]
  unfold fillnaIfPresent
  by_cases h : c ∈ df.cols
  · simp only [h, if_true]
    exact sameView_fillnaCol df c
  · simp only [h, if_false]
    exact sameView_refl df

theorem apply_validation_snd_congr {A B : DataFrame} (h : SameView A B)
    (c r p : String) :
    (apply_validation A c r p).2 = (apply_validation B c r p).2 := by
  rw [apply_validation_snd, apply_validation_snd, h.1, h.2 c]

theorem apply_ok_pairwise {df : DataFrame} {c r p : String} {E : List (Nat × String)}
    (h : (apply_validation df c r p).2 = Except.ok E) :
    E.Pairwise (fun x y => x.1 < y.1) := by
  rw [apply_validation_snd] at h
  by_cases hc : c ∈ df.cols
  · rw [if_pos hc] at h
    exact evalDispatch_ok_pairwise h
  · rw [if_neg hc] at h
    cases h
    exact List.Pairwise.nil

theorem runValidation_fst_sameView (sel : List String) (df : DataFrame) (r p : String) :
    SameView (runValidation df sel r p).1 df := by
  induction sel generalizing df with
  | nil => exact sameView_refl df
  | cons c rest ih =>
    have hv := sameView_apply_fst df c r p
    rcases happ : apply_validation df c r p with ⟨df1, res⟩
    rw [happ] at hv
    cases res with
    | error e =>
      simp only [runValidation, happ]
      exact hv
    | ok errs =>
      have h2 := ih df1
      rcases hrun : runValidation df1 rest r p with ⟨df2, res2⟩
      rw [hrun] at h2
      cases res2 with
      | error e =>
        simp only [runValidation, happ, hrun]
        exact sameView_trans h2 hv
      | ok more =>
        simp only [runValidation, happ, hrun]
        exact sameView_trans h2 hv

theorem runValidation_snd_congr {A B : DataFrame} (h : SameView A B)
    (sel : List String) (r p : String) :
    (runValidation A sel r p).2 = (runValidation B sel r p).2 := by
  induction sel generalizing A B with
  | nil => rfl
  | cons c rest ih =>
    have hsnd := apply_validation_snd_congr h c r p
    have hvA := sameView_apply_fst A c r p
    have hvB := sameView_apply_fst B c r p
    rcases hA : apply_validation A c r p with ⟨A1, resA⟩
    rcases hB : apply_validation B c r p with ⟨B1, resB⟩
    rw [hA, hB] at hsnd
    rw [hA] at hvA
    rw [hB] at hvB
    simp only at hsnd
    subst hsnd
    have hAB : SameView A1 B1 :=
      sameView_trans hvA (sameView_trans h (sameView_symmetric hvB))
    cases resA with
    | error e => simp only [runValidation, hA, hB]
    | ok errs =>
      have htail := ih hAB
      rcases hrA : runValidation A1 rest r p with ⟨A2, resA2⟩
      rcases hrB : runValidation B1 rest r p with ⟨B2, resB2⟩
      rw [hrA, hrB] at htail
      simp only at htail
      subst htail
      cases resA2 with
      | error e => simp only [runValidation, hA, hB, hrA, hrB]
      | ok more => simp only [runValidation, hA, hB, hrA, hrB]

theorem runValidation_mem_col {sel : List String} {df df2 : DataFrame} {r p : String}
    {E : List (Nat × String × String)}
    (h : runValidation df sel r p = (df2, Except.ok E)) :
    ∀ e ∈ E, e.2.1 ∈ sel := by
  induction sel generalizing df df2 E with
  | nil =>
    cases h
    intro e he
    simp at he
  | cons c rest ih =>
    rcases happ : apply_validation df c r p with ⟨df1, res⟩
    cases res with
    | error e0 =>
      simp only [runValidation, happ] at h
      simp at h
    | ok errs =>
      rcases hrun : runValidation df1 rest r p with ⟨dfR, resR⟩
      cases resR with
      | error e0 =>
        simp only [runValidation, happ, hrun] at h
        simp at h
      | ok more =>
        simp only [runValidation, happ, hrun, Prod.mk.injEq, Except.ok.injEq] at h
        rcases h with ⟨h1, h2⟩
        subst h2
        intro e he
        rcases List.mem_append.1 he with h1 | h1
        · rcases List.mem_map.1 h1 with ⟨im, _, him⟩
          rw [← him]
          exact List.mem_cons_self c rest
        · exact List.mem_cons_of_mem c (ih hrun e h1)

theorem setSelf {α : Type} {l : List α} {n : Nat} {a : α} (h : l[n]? = some a) :
    l.set n a = l := by
  induction l generalizing n with
  | nil => simp at h
  | cons x xs ih =>
    cases n with
    | zero =>
      simp only [List.getElem?_cons_zero, Option.some.injEq] at h
      rw [← h]
      rfl
    | succ m =>
      simp only [List.getElem?_cons_succ] at h
      show x :: xs.set m a = x :: xs
      rw [ih h]

theorem fillnaCol_eq_self {df : DataFrame} {c : String}
    (h : ∀ cell ∈ colCells df c, cell ≠ none) : fillnaCol df c = df := by
  have h2 : ∀ r ∈ df.rows,
      r.set (colIdx df.cols c) (some (((r[colIdx df.cols c]?).getD none).getD "")) = r := by
    intro r hr
    have hcell : ((r[colIdx df.cols c]?).getD none) ≠ none := by
      apply h
      exact List.mem_map.2 ⟨r, hr, rfl⟩
    cases hg : r[colIdx df.cols c]? with
    | none => rw [hg] at hcell; simp at hcell
    | some cell0 =>
      cases cell0 with
      | none => rw [hg] at hcell; simp at hcell
      | some s =>
        simp only [Option.getD_some]
        exact setSelf hg
  have hrows : df.rows.map (fun r =>
      r.set (colIdx df.cols c) (some (((r[colIdx df.cols c]?).getD none).getD ""))) = df.rows :=
    (List.map_congr_left h2).trans (List.map_id' df.rows)
  unfold fillnaCol
  rw [hrows]

/-- C8: a target column absent from the dataset makes the engine return
zero violations, without failing and without touching the dataset, for
every rule and parameter. -/
theorem c8_unknown_column (df : DataFrame) (c r p : String) (h : c ∉ df.cols) :
    apply_validation df c r p = (df, Except.ok []) := by
  unfold apply_validation
  rw [if_neg h]

theorem c8_unknown_column_witness :
    ("zzz" ∉ dfLen.cols) ∧
      apply_validation dfLen "zzz" "numeric_only" "" = (dfLen, Except.ok []) :=
  ⟨by decide, c8_unknown_column dfLen "zzz" "numeric_only" "" (by decide)⟩

/-- C3, counterexample to the claim as stated: a rule identifier the engine
does not recognize (here allowed_values, a rule the spec lists but the code
never implements) raises no error at all; the call returns normally with an
empty violation list. -/
theorem c3_counterexample :
    apply_validation dfLen "id" "allowed_values" "A,B" = (dfLen, Except.ok []) := by
  rfl

/-- C3, amended: a rule identifier that is none of the three recognized
strings falls through the if/elif chain silently; the engine raises nothing
and returns the empty violation list (after the fillna step has already
rewritten the target column). -/
theorem c3_unknown_rule (df : DataFrame) (c rule p : String)
    (h1 : rule ≠ "contains_keyword_in_row") (h2 : rule ≠ "numeric_only")
    (h3 : rule ≠ "fixed_length") :
    apply_validation df c rule p = (fillnaIfPresent df c, Except.ok []) := by
  unfold apply_validation fillnaIfPresent evalDispatch
  by_cases h : c ∈ df.cols
  · rw [if_pos h, if_pos h, if_neg h1, if_neg h2, if_neg h3]
  · rw [if_neg h, if_neg h]

theorem c3_unknown_rule_witness :
    apply_validation dfMiss "a" "allowed_values" "A,B" =
      (fillnaIfPresent dfMiss "a", Except.ok []) :=
  c3_unknown_rule dfMiss "a" "allowed_values" "A,B" (by decide) (by decide) (by decide)

/-- C2, counterexample to the claim as stated: on a dataset with a missing
cell in the target column, the call rewrites that cell to the empty string,
so the dataset the caller observes afterwards differs from the one before
the call. -/
theorem c2_counterexample :
    (apply_validation dfMiss "a" "numeric_only" "").1 ≠ dfMiss ∧
      apply_validation dfMiss "a" "numeric_only" "" =
        (dfMissFilled, Except.ok [(0, msgNumeric "")]) := by
  refine ⟨by decide, by rfl⟩

/-- C2, amended: evaluating a rule leaves the dataset unchanged whenever
the target column has no missing cells (in general the call replaces
exactly the missing cells of the target column by the empty string). -/
theorem c2_pure_when_no_missing (df : DataFrame) (c r p : String)
    (h : ∀ cell ∈ colCells df c, cell ≠ none) :
    (apply_validation df c r p).1 = df := by
  rw [apply_validation_fst]
  unfold fillnaIfPresent
  by_cases hc : c ∈ df.cols
  · rw [if_pos hc, fillnaCol_eq_self h]
  · rw [if_neg hc]

theorem c2_pure_when_no_missing_witness :
    (∀ cell ∈ colCells dfLen "id", cell ≠ none) ∧
      (apply_validation dfLen "id" "numeric_only" "").1 = dfLen :=
  ⟨by decide, c2_pure_when_no_missing dfLen "id" "numeric_only" "" (by decide)⟩

/-- C10: one apply_validation call changes at most the target column, and
there only by rewriting each cell to its string form (missing cells become
the empty string): the column names are unchanged, the number and order of
rows is unchanged, every other column is unchanged cell for cell, and the
target column is either untouched (absent column) or pointwise filled. -/
theorem c10_frame (df : DataFrame) (c r p : String)
    (hrect : ∀ r0 ∈ df.rows, r0.length = df.cols.length) :
    ((apply_validation df c r p).1).cols = df.cols ∧
    ((apply_validation df c r p).1).rows.length = df.rows.length ∧
    (∀ c0, c0 ≠ c → colCells (apply_validation df c r p).1 c0 = colCells df c0) ∧
    (colCells (apply_validation df c r p).1 c =
        (colCells df c).map (fun x => some (x.getD "")) ∨
      (apply_validation df c r p).1 = df) := by
  rw [apply_validation_fst]
  unfold fillnaIfPresent
  by_cases hc : c ∈ df.cols
  · rw [if_pos hc]
    refine ⟨rfl, ?_, ?_, Or.inl ?_⟩
    · show (df.rows.map _).length = _
      rw [List.length_map]
    · intro c0 hne
      show (df.rows.map _).map _ = df.rows.map _
      rw [List.map_map]
      apply List.map_congr_left
      intro r hr
      show (((r.set (colIdx df.cols c) _)[colIdx df.cols c0]?).getD none) = _
      rw [List.getElem?_set_ne (colIdx_ne hc (Ne.symm hne))]
    · show (df.rows.map _).map _ = (df.rows.map _).map _
      rw [List.map_map, List.map_map]
      apply List.map_congr_left
      intro r hr
      have hj : colIdx df.cols c < r.length := by
        rw [hrect r hr]
        exact colIdx_lt_length hc
      show (((r.set (colIdx df.cols c) _)[colIdx df.cols c]?).getD none) = _
      rw [List.getElem?_set_self hj]
      rfl
  · rw [if_neg hc]
    exact ⟨rfl, rfl, fun c0 _ => rfl, Or.inr rfl⟩

theorem c10_frame_witness :
    (∀ r0 ∈ dfMiss.rows, r0.length = dfMiss.cols.length) ∧
      ((apply_validation dfMiss "a" "numeric_only" "").1).cols = dfMiss.cols :=
  ⟨by decide, (c10_frame dfMiss "a" "numeric_only" "" (by decide)).1⟩

/-- C4, counterexample to the claim as stated: the non-positive parameter 0
is accepted by int(param), no InvalidParameter failure occurs, and the call
returns a violation list (here every row, since no string has length 0). -/
theorem c4_counterexample :
    apply_validation dfLen "id" "fixed_length" "0" =
      (dfLen, Except.ok
        [(0, msgLength "001" 0), (1, msgLength "02" 0), (2, msgLength "abc" 0)]) := by
  rfl

/-- C4, amended: for fixed_length on an existing column, a parameter that
does not parse as an integer raises the int() conversion error with no
violation list returned (the fillna rewrite has already happened), while
any parameter that parses as an integer, positive or not, is accepted and
evaluation proceeds normally. -/
theorem c4_fixed_length_param (df : DataFrame) (c p : String) (hc : c ∈ df.cols) :
    (pyInt p = none →
      apply_validation df c "fixed_length" p =
        (fillnaCol df c, Except.error VErr.invalidParameter)) ∧
    (∀ L, pyInt p = some L →
      apply_validation df c "fixed_length" p =
        (fillnaCol df c,
          Except.ok (ruleErrors (fun v => decide ((v.length : Int) = L))
            (fun v => msgLength v L) (colStrings df c)))) := by
  constructor
  · intro hnone
    unfold apply_validation evalDispatch
    rw [if_pos hc,
      if_neg (by decide : ¬("fixed_length" = "contains_keyword_in_row")),
      if_neg (by decide : ¬("fixed_length" = "numeric_only")),
      if_pos (rfl : "fixed_length" = "fixed_length"), hnone]
  · intro L hL
    unfold apply_validation evalDispatch
    rw [if_pos hc,
      if_neg (by decide : ¬("fixed_length" = "contains_keyword_in_row")),
      if_neg (by decide : ¬("fixed_length" = "numeric_only")),
      if_pos (rfl : "fixed_length" = "fixed_length"), hL,
      colStrings_fillnaCol]

theorem c4_fixed_length_param_witness :
    apply_validation dfLen "id" "fixed_length" "abc" =
      (fillnaCol dfLen "id", Except.error VErr.invalidParameter) :=
  (c4_fixed_length_param dfLen "id" "abc" (by decide)).1 (by rfl)

theorem okErrors_contains (df : DataFrame) (kw : String) {c : String} (hc : c ∈ df.cols) :
    okErrors df c "contains_keyword_in_row" kw =
      ruleErrors (fun v => pyIn kw v) (fun v => msgKeyword kw v) (colStrings df c) := by
  unfold okErrors
  rw [apply_validation_snd, if_pos hc]
  unfold evalDispatch
  rw [if_pos rfl]

theorem okErrors_numeric (df : DataFrame) (p : String) {c : String} (hc : c ∈ df.cols) :
    okErrors df c "numeric_only" p =
      ruleErrors pyIsNumeric msgNumeric (colStrings df c) := by
  unfold okErrors
  rw [apply_validation_snd, if_pos hc]
  unfold evalDispatch
  rw [if_neg (by decide : ¬("numeric_only" = "contains_keyword_in_row")), if_pos rfl]

theorem okErrors_fixed (df : DataFrame) {p : String} {L : Int} (hp : pyInt p = some L)
    {c : String} (hc : c ∈ df.cols) :
    okErrors df c "fixed_length" p =
      ruleErrors (fun v => decide ((v.length : Int) = L))
        (fun v => msgLength v L) (colStrings df c) := by
  unfold okErrors
  rw [apply_validation_snd, if_pos hc]
  unfold evalDispatch
  rw [if_neg (by decide : ¬("fixed_length" = "contains_keyword_in_row")),
    if_neg (by decide : ¬("fixed_length" = "numeric_only")),
    if_pos (rfl : "fixed_length" = "fixed_length"), hp]

theorem pyIsNumeric_eq_false_iff {s : String} :
    pyIsNumeric s = false ↔ s = "" ∨ ∃ ch ∈ s.data, pyCharIsNumeric ch = false := by
  have hempty : s = "" ↔ s.data = [] := by
    constructor
    · intro h
      rw [h]
    · intro h
      exact String.ext h
  unfold pyIsNumeric
  rw [hempty]
  cases hd : s.data with
  | nil => simp
  | cons a l0 =>
    simp only [List.isEmpty_cons, Bool.not_false, Bool.true_and, List.all_eq_false,
      List.cons_ne_nil, false_or, List.mem_cons, List.all_cons, Bool.and_eq_false_imp]
    constructor
    · intro h
      by_cases hpa : pyCharIsNumeric a
      · rcases h hpa with ⟨x, hx1, hx2⟩
        exact ⟨x, Or.inr hx1, by simp [hx2]⟩
      · exact ⟨a, Or.inl rfl, Bool.eq_false_iff.2 hpa⟩
    · rintro ⟨x, hx1, hx2⟩ hpa
      rcases hx1 with rfl | hx1
      · rw [hpa] at hx2
        cases hx2
      · exact ⟨x, hx1, by simp [hx2]⟩

theorem pyCharIsNumeric_ascii {ch : Char} (h : ch.toNat < 128) :
    pyCharIsNumeric ch = ch.isDigit := by
  unfold pyCharIsNumeric
  have hna : nonAsciiNumericChar ch = false := by
    unfold nonAsciiNumericChar
    rw [decide_eq_false_iff_not]
    intro hcon
    rcases hcon with h1 | h1 | h1 | h1 | h1 | h1 | h1 | h1 | h1 | h1 <;> omega
  rw [hna, Bool.or_false]

/-- C5, counterexample to the claim as stated: the superscript-two
character is not one of the decimal digits 0-9, so the claim calls the cell
a violation, yet Python str.isnumeric accepts it and the engine reports no
violation for it. -/
theorem c5_counterexample :
    apply_validation dfSup "a" "numeric_only" "" = (dfSup, Except.ok []) ∧
      supTwo ≠ "" ∧ (∃ ch ∈ supTwo.data, ch.isDigit = false) := by
  refine ⟨by rfl, by decide, by decide⟩

/-- C5, amended: a numeric_only cell is a violation iff its string form is
empty or contains a character Python str.isnumeric rejects; restricted to
ASCII strings this is exactly the claimed 0-9 criterion, and the three
particular cases of the claim hold in general: the empty string always
violates, a string of only digits 0-9 never violates, and a string
containing a decimal point or a minus sign always violates. -/
theorem c5_numeric_only (df : DataFrame) (c p : String) (i : Nat) (s : String)
    (hc : c ∈ df.cols) (hs : (colStrings df c)[i]? = some s) :
    ((∀ ch ∈ s.data, ch.toNat < 128) →
      ((∃ m, (i, m) ∈ okErrors df c "numeric_only" p) ↔
        (s = "" ∨ ∃ ch ∈ s.data, ch.isDigit = false))) ∧
    (s = "" → ∃ m, (i, m) ∈ okErrors df c "numeric_only" p) ∧
    ((s ≠ "" ∧ ∀ ch ∈ s.data, ch.isDigit = true) →
      ¬∃ m, (i, m) ∈ okErrors df c "numeric_only" p) ∧
    ((∃ ch ∈ s.data, ch = Char.ofNat 46 ∨ ch = Char.ofNat 45) →
      ∃ m, (i, m) ∈ okErrors df c "numeric_only" p) := by
  have hiff : (∃ m, (i, m) ∈ okErrors df c "numeric_only" p) ↔ pyIsNumeric s = false := by
    rw [okErrors_numeric df p hc, exists_mem_ruleErrors]
    constructor
    · rintro ⟨s0, h1, h2⟩
      rw [hs] at h1
      obtain rfl := Option.some.inj h1
      exact h2
    · intro h2
      exact ⟨s, hs, h2⟩
  refine ⟨?_, ?_, ?_, ?_⟩
  · intro hascii
    rw [hiff, pyIsNumeric_eq_false_iff]
    constructor
    · rintro (he | ⟨ch, hch, hpc⟩)
      · exact Or.inl he
      · refine Or.inr ⟨ch, hch, ?_⟩
        rw [← pyCharIsNumeric_ascii (hascii ch hch)]
        exact hpc
    · rintro (he | ⟨ch, hch, hpc⟩)
      · exact Or.inl he
      · refine Or.inr ⟨ch, hch, ?_⟩
        rw [pyCharIsNumeric_ascii (hascii ch hch)]
        exact hpc
  · intro he
    refine hiff.2 ?_
    rw [he]
    decide
  · rintro ⟨hne, hd⟩ hex
    have hfalse := hiff.1 hex
    rw [pyIsNumeric_eq_false_iff] at hfalse
    rcases hfalse with he | ⟨ch, hch, hpc⟩
    · exact hne he
    · rw [pyCharIsNumeric] at hpc
      rw [hd ch hch] at hpc
      simp at hpc
  · rintro ⟨ch, hch, hv⟩
    refine hiff.2 (pyIsNumeric_eq_false_iff.2 (Or.inr ⟨ch, hch, ?_⟩))
    rcases hv with rfl | rfl <;> decide

theorem c5_numeric_only_witness :
    ∃ m, (0, m) ∈ okErrors dfMiss "a" "numeric_only" "" :=
  (c5_numeric_only dfMiss "a" "" 0 "" (by decide) (by rfl)).2.1 rfl

/-- C6: for fixed_length with a positive integer parameter L on an existing
column, row i carries a violation iff the string form of its cell does not
have exactly L characters; on the 001 / 02 / abc scenario dataset with
L = 3 the run returns exactly one violation, for row index 1. -/
theorem c6_fixed_length (df : DataFrame) (c p : String) (L : Int)
    (hp : pyInt p = some L) (_hL : 0 < L) (hc : c ∈ df.cols) :
    (∀ i : Nat, (∃ m, (i, m) ∈ okErrors df c "fixed_length" p) ↔
      ∃ s, (colStrings df c)[i]? = some s ∧ (s.length : Int) ≠ L) ∧
    apply_validation dfLen "id" "fixed_length" "3" =
      (dfLen, Except.ok [(1, msgLength "02" 3)]) := by
  constructor
  · intro i
    rw [okErrors_fixed df hp hc, exists_mem_ruleErrors]
    constructor
    · rintro ⟨s, h1, h2⟩
      exact ⟨s, h1, of_decide_eq_false h2⟩
    · rintro ⟨s, h1, h2⟩
      exact ⟨s, h1, decide_eq_false h2⟩
  · rfl

theorem c6_fixed_length_witness :
    apply_validation dfLen "id" "fixed_length" "3" =
      (dfLen, Except.ok [(1, msgLength "02" 3)]) :=
  (c6_fixed_length dfLen "id" "3" 3 (by rfl) (by decide) (by decide)).2

/-- C7: for the keyword rule with a non-empty keyword on an existing
column, row i carries a violation iff the keyword is not a case-sensitive
contiguous substring of the string form of its cell, a missing cell
reading as the empty string; on the food / Foo / missing scenario dataset
with keyword foo, exactly rows 1 and 2 are violations. -/
theorem c7_contains_keyword (df : DataFrame) (c kw : String)
    (_hkw : kw ≠ "") (hc : c ∈ df.cols) :
    (∀ i : Nat, (∃ m, (i, m) ∈ okErrors df c "contains_keyword_in_row" kw) ↔
      ∃ s, (colStrings df c)[i]? = some s ∧ ¬(kw.data <:+: s.data)) ∧
    apply_validation dfKw "v" "contains_keyword_in_row" "foo" =
      (dfKwFilled, Except.ok [(1, msgKeyword "foo" "Foo"), (2, msgKeyword "foo" "")]) := by
  constructor
  · intro i
    rw [okErrors_contains df kw hc, exists_mem_ruleErrors]
    constructor
    · rintro ⟨s, h1, h2⟩
      refine ⟨s, h1, ?_⟩
      unfold pyIn at h2
      exact of_decide_eq_false h2
    · rintro ⟨s, h1, h2⟩
      refine ⟨s, h1, ?_⟩
      unfold pyIn
      exact decide_eq_false h2
  · rfl

theorem c7_contains_keyword_witness :
    apply_validation dfKw "v" "contains_keyword_in_row" "foo" =
      (dfKwFilled, Except.ok [(1, msgKeyword "foo" "Foo"), (2, msgKeyword "foo" "")]) :=
  (c7_contains_keyword dfKw "v" "foo" (by decide) (by decide)).2

/-- C9: a run that completed with violation list E, rerun on the dataset
as the first run left it, completes again with the identical ordered list
E (determinism; the only state the first run changed, the filled cells of
the target columns, does not alter any string form the rules observe). -/
theorem c9_determinism (df df1 : DataFrame) (sel : List String) (r p : String)
    (E : List (Nat × String × String))
    (h : runValidation df sel r p = (df1, Except.ok E)) :
    (runValidation df1 sel r p).2 = Except.ok E := by
  have hview : SameView df1 df := by
    have h2 := runValidation_fst_sameView sel df r p
    rw [h] at h2
    exact h2
  rw [runValidation_snd_congr hview sel r p, h]

theorem c9_determinism_witness :
    (runValidation dfMissFilled ["a"] "numeric_only" "").2 =
      Except.ok [(0, "a", msgNumeric "")] :=
  c9_determinism dfMiss dfMissFilled ["a"] "numeric_only" ""
    [(0, "a", msgNumeric "")] (by rfl)

/-- C1, counterexample to the claim as stated: with two selected columns
and violations in both, the loop returns all violations of the first
column before any of the second, so the list is not row-major ordered. -/
theorem c1_counterexample :
    runValidation dfTwo ["a", "b"] "numeric_only" "" = (dfTwo, Except.ok listTwo) ∧
      ¬listTwo.Pairwise (specRowMajorLe ["a", "b"]) := by
  refine ⟨by rfl, by decide⟩

theorem colMajorLe_cons {c : String} {rest : List String} {x y : Nat × String × String}
    (hcx : x.2.1 ∈ rest) (hcy : y.2.1 ∈ rest) (hc : c ∉ rest)
    (h : colMajorLe rest x y) : colMajorLe (c :: rest) x y := by
  unfold colMajorLe at h ⊢
  have hnex : c ≠ x.2.1 := fun he => hc (he ▸ hcx)
  have hney : c ≠ y.2.1 := fun he => hc (he ▸ hcy)
  have hx : colIdx (c :: rest) x.2.1 = colIdx rest x.2.1 + 1 := by
    simp [colIdx, hnex]
  have hy : colIdx (c :: rest) y.2.1 = colIdx rest y.2.1 + 1 := by
    simp [colIdx, hney]
  rcases h with h | h
  · rw [hx, hy]
    exact Or.inl (Nat.succ_lt_succ h)
  · exact Or.inr h

/-- C1, amended: the violation list of a completed run over distinct
selected columns is ordered column-major: grouped by target column in the
caller-specified order, and ascending by row index within each column. -/
theorem c1_column_major (df df2 : DataFrame) (sel : List String) (r p : String)
    (E : List (Nat × String × String)) (hnd : sel.Nodup)
    (h : runValidation df sel r p = (df2, Except.ok E)) :
    E.Pairwise (colMajorLe sel) := by
  induction sel generalizing df df2 E with
  | nil =>
    simp only [runValidation, Prod.mk.injEq, Except.ok.injEq] at h
    rw [← h.2]
    exact List.Pairwise.nil
  | cons c rest ih =>
    rcases List.nodup_cons.1 hnd with ⟨hcnot, hndrest⟩
    rcases happ : apply_validation df c r p with ⟨df1, res⟩
    cases res with
    | error e0 =>
      simp only [runValidation, happ] at h
      simp at h
    | ok errs =>
      rcases hrun : runValidation df1 rest r p with ⟨dfR, resR⟩
      cases resR with
      | error e0 =>
        simp only [runValidation, happ, hrun] at h
        simp at h
      | ok more =>
        simp only [runValidation, happ, hrun, Prod.mk.injEq, Except.ok.injEq] at h
        rw [← h.2, List.pairwise_append]
        refine ⟨?_, ?_, ?_⟩
        · have hpw : errs.Pairwise (fun x y => x.1 < y.1) :=
            apply_ok_pairwise
              (show (apply_validation df c r p).2 = Except.ok errs by rw [happ])
          rw [List.pairwise_map]
          refine hpw.imp ?_
          intro a b hab
          exact Or.inr ⟨rfl, hab⟩
        · have hmem := runValidation_mem_col hrun
          have hpw := ih df1 dfR more hndrest hrun
          refine hpw.imp_of_mem ?_
          intro a b ha hb hrel
          exact colMajorLe_cons (hmem a ha) (hmem b hb) hcnot hrel
        · intro a ha b hb
          rcases List.mem_map.1 ha with ⟨im, _, him⟩
          have hbcol := runValidation_mem_col hrun b hb
          have hane : a.2.1 = c := by rw [← him]
          have hbne : c ≠ b.2.1 := fun he => hcnot (he ▸ hbcol)
          unfold colMajorLe
          left
          have h0 : colIdx (c :: rest) c = 0 := by simp [colIdx]
          have hb1 : colIdx (c :: rest) b.2.1 = colIdx rest b.2.1 + 1 := by
            simp [colIdx, hbne]
          rw [hane, h0, hb1]
          exact Nat.succ_pos _

theorem c1_column_major_witness :
    listTwo.Pairwise (colMajorLe ["a", "b"]) :=
  c1_column_major dfTwo dfTwo ["a", "b"] "numeric_only" "" listTwo
    (by decide) (by rfl)

end DataValidation
